import Mathlib

/-!
Verification development for the launcher core (Rust sources under
`src-tauri/src`).  Pure fragments of the code are embedded shallowly as
Lean functions; platform conditionals (`cfg!(target_os = ...)`) become an
explicit `windows : Bool` / `currentOs : String` parameter, async I/O
becomes explicit state passing, and fallible code returns `Except`.
-/

namespace SLL

/-! ## Character/string helpers (models of Rust `str` operations) -/

/-- Model of Rust slice-pattern matching: is `pat` a leading segment of `s`? -/
def leadsChars : List Char → List Char → Bool
  | [], _ => true
  | _ :: _, [] => false
  | a :: as, b :: bs => a == b && leadsChars as bs

/-- Model of Rust `str::contains(pat)` for a nonempty literal pattern,
working on the character lists of both strings. -/
def charsHaveSub (pat : List Char) : List Char → Bool
  | [] => pat.isEmpty
  | c :: rest => leadsChars pat (c :: rest) || charsHaveSub pat rest

/-- Model of Rust `s.contains(pat)`: `strContainsSub s pat`. -/
def strContainsSub (s pat : String) : Bool :=
  charsHaveSub pat.data s.data

/-- Model of Rust `str::trim` (whitespace stripped from both ends). -/
def trimChars (s : List Char) : List Char :=
  ((s.dropWhile Char.isWhitespace).reverse.dropWhile Char.isWhitespace).reverse

def trimStr (s : String) : String :=
  String.mk (trimChars s.data)

/-- Model of Rust `str::split(sep)` for a `char` separator (keeps empty
pieces, exactly like the Rust iterator). -/
def splitGo (sep : Char) : List Char → List Char → List (List Char)
  | [], acc => [acc.reverse]
  | c :: rest, acc =>
      if c == sep then acc.reverse :: splitGo sep rest []
      else splitGo sep rest (c :: acc)

def splitStr (sep : Char) (s : String) : List String :=
  (splitGo sep s.data []).map String.mk

/-- Model of Rust `Vec::join(sep)` / `[&str]::join(sep)`. -/
def joinSep (sep : String) : List String → String
  | [] => ""
  | [x] => x
  | x :: xs => x ++ sep ++ joinSep sep xs

/-- Model of Rust `u8::eq_ignore_ascii_case` lifted to one character. -/
def asciiLower (c : Char) : Char :=
  if 'A' ≤ c && c ≤ 'Z' then Char.ofNat (c.toNat + 32) else c

/-- Model of Rust `str::eq_ignore_ascii_case`. -/
def eqIgnoreAsciiCase (a b : String) : Bool :=
  a.data.length == b.data.length &&
    (a.data.zip b.data).all (fun p => asciiLower p.1 == asciiLower p.2)

/-- Model of Rust `str::starts_with(pat)` for a literal pattern. -/
def startsWithStr (s pat : String) : Bool :=
  leadsChars pat.data s.data

/-! ## JSON values (model of `serde_json::Value`) -/

inductive Json where
  | null : Json
  | bool : Bool → Json
  | num : Int → Json
  | str : String → Json
  | arr : List Json → Json
  | obj : List (String × Json) → Json

/-- First binding of key `k` (objects parsed from JSON have unique keys). -/
def lookupField : List (String × Json) → String → Option Json
  | [], _ => none
  | (k, v) :: rest, key => if k = key then some v else lookupField rest key

/-- Replace the first binding of `k`, or append one (model of map insert). -/
def setField : List (String × Json) → String → Json → List (String × Json)
  | [], k, v => [(k, v)]
  | (k1, v1) :: rest, k, v =>
      if k1 = k then (k1, v) :: rest else (k1, v1) :: setField rest k v

/-- Model of `Value::get(key)`. -/
def Json.get (j : Json) (k : String) : Option Json :=
  match j with
  | .obj fs => lookupField fs k
  | _ => none

/-- Model of `Value::as_str`. -/
def Json.asStr : Json → Option String
  | .str s => some s
  | _ => none

/-- Model of `Value::as_array`. -/
def Json.asArr : Json → Option (List Json)
  | .arr xs => some xs
  | _ => none

/-- Model of `Value::as_object` (field list). -/
def Json.asObj : Json → Option (List (String × Json))
  | .obj fs => some fs
  | _ => none

/-- Model of `value[key] = x` index assignment.  In `serde_json` this
inserts into an object (and turns `null` into a one-field object); other
receivers panic there and never occur in the merged-descriptor code. -/
def Json.set (j : Json) (k : String) (v : Json) : Json :=
  match j with
  | .obj fs => .obj (setField fs k v)
  | .null => .obj [(k, v)]
  | other => other

/-- Model of `opt.and_then(as_array).cloned().unwrap_or_default()`. -/
def optAsArrD (o : Option Json) : List Json :=
  match o with
  | some (.arr xs) => xs
  | _ => []

/-! ## Platform rule evaluation

`rules_allow` is the launch-path evaluator in `commands/profile.rs`;
`check_library_rules` is the evaluator of the Minecraft installer in
`services/minecraft.rs`.  The compile-time current OS is a parameter. -/

/-- Transcription of `matches_os_name` from `commands/profile.rs`. -/
def matches_os_name (currentOs name : String) : Bool :=
  name == currentOs

/-- The `os.name` test of one rule in `rules_allow`:
`rule.get("os").and_then(get "name").and_then(as_str).map(matches_os_name).unwrap_or(true)`. -/
def ruleOsOk (currentOs : String) (rule : Json) : Bool :=
  match ((rule.get "os").bind (fun o => o.get "name")).bind Json.asStr with
  | some n => matches_os_name currentOs n
  | none => true

/-- Model of `rule.get("action").and_then(as_str).unwrap_or("")`. -/
def ruleAction (rule : Json) : String :=
  (((rule.get "action").bind Json.asStr)).getD ""

/-- The scan loop of `rules_allow`: `disallow` on a matching rule returns
`false` immediately; `allow` sets the pending flag. -/
def rulesAllowGo (currentOs : String) : List Json → Bool → Bool
  | [], matchedAllow => matchedAllow
  | r :: rest, matchedAllow =>
      if ruleOsOk currentOs r then
        match ruleAction r with
        | "disallow" => false
        | "allow" => rulesAllowGo currentOs rest true
        | _ => rulesAllowGo currentOs rest matchedAllow
      else rulesAllowGo currentOs rest matchedAllow

/-- Transcription of `rules_allow` from `commands/profile.rs` (the early `return false` on a
matching disallow only happens on nonempty lists, where `is_empty` is
false, so the final disjunction is faithful). -/
def rules_allow (currentOs : String) (rules : List Json) : Bool :=
  rulesAllowGo currentOs rules false || rules.isEmpty

/-- Model of `models::OsRule` (only `name` is consulted by `matches_os`). -/
structure OsRule where
  name : Option String
  version : Option String
  arch : Option String

/-- Model of `models::Rule` (the `features` map is never consulted by the installer). -/
structure MRule where
  action : String
  os : Option OsRule

/-- Transcription of `MinecraftInstaller::matches_os` from `services/minecraft.rs`. -/
def matches_os (currentOs : String) (os : OsRule) : Bool :=
  match os.name with
  | some n => n == currentOs
  | none => true

/-- Transcription of `MinecraftInstaller::check_library_rules` from `services/minecraft.rs`:
note the body *assigns* `allowed = (action == "allow")` on every matching
rule, so the last matching rule wins. -/
def check_library_rules (currentOs : String) (rules : List MRule) : Bool :=
  if rules.isEmpty then true
  else
    rules.foldl
      (fun allowed rule =>
        let m := match rule.os with
          | some os => matches_os currentOs os
          | none => true
        if m then rule.action == "allow" else allowed)
      false

/-- Whether one rule matches the current platform (its OS constraint, if
any, names the current OS); used to state characterizations. -/
def mruleMatches (currentOs : String) (rule : MRule) : Bool :=
  match rule.os with
  | some os => matches_os currentOs os
  | none => true

/-- The last rule of the list matching the current platform, if any. -/
def lastMatching (currentOs : String) : List MRule → Option MRule
  | [] => none
  | r :: rest =>
      match lastMatching currentOs rest with
      | some x => some x
      | none => if mruleMatches currentOs r then some r else none

/-! ## Descriptor merge and inheritance (`commands/profile.rs`) -/

/-- Transcription of `merge_version_json(parent, child)` from `commands/profile.rs`,
transcribed step by step: child `mainClass` overrides; `libraries` and
`arguments.game`/`arguments.jvm` concatenate parent-then-child; all other
top-level child keys overwrite the parent. -/
def merge_version_json (parent child : Json) : Json :=
  let out := parent
  let out := match child.get "mainClass" with
    | some mc => out.set "mainClass" mc
    | none => out
  let libs := optAsArrD (out.get "libraries") ++ optAsArrD (child.get "libraries")
  let out := out.set "libraries" (.arr libs)
  let argsObj : List (String × Json) :=
    match (out.get "arguments").getD Json.null with
    | .obj fs => fs
    | _ => []
  let parentGame := optAsArrD (lookupField argsObj "game")
  let parentJvm := optAsArrD (lookupField argsObj "jvm")
  let gameJvm : List Json × List Json :=
    match (child.get "arguments").bind Json.asObj with
    | some cargs =>
        (parentGame ++ optAsArrD (lookupField cargs "game"),
         parentJvm ++ optAsArrD (lookupField cargs "jvm"))
    | none => (parentGame, parentJvm)
  let argsObj := setField argsObj "game" (.arr gameJvm.1)
  let argsObj := setField argsObj "jvm" (.arr gameJvm.2)
  let out := out.set "arguments" (.obj argsObj)
  match child.asObj with
  | some cfs =>
      cfs.foldl
        (fun acc kv =>
          if kv.1 = "libraries" ∨ kv.1 = "arguments" ∨ kv.1 = "mainClass" then acc
          else acc.set kv.1 kv.2)
        out
  | none => out

/-- Transcription of `load_merged_version_json` from `commands/profile.rs`.  The on-disk
version store is modelled as a partial map from version id to parsed JSON;
`none` is a missing/unreadable file.  The function resolves exactly one
level of `inheritsFrom`: it loads the named parent and merges it, without
recursing into the `inheritsFrom` of the parent itself. -/
def load_merged_version_json (store : String → Option Json) (id : String) :
    Option Json :=
  match store id with
  | none => none
  | some v =>
      match (v.get "inheritsFrom").bind Json.asStr with
      | some pid =>
          match store pid with
          | some parent => some (merge_version_json parent v)
          | none => some v
      | none => some v

/-- Modelled from the spec: the resolver described in §4.3 "recursively
load and merge the parent *before* applying the child", i.e. the merge
function folded parent-then-child along the whole `inheritsFrom` chain
(with fuel for termination; a missing parent keeps the child, mirroring
the recovery done by the code).  This is the refinement comparator for the
inheritance claim. -/
def loadMergedSpecFold (store : String → Option Json) :
    Nat → String → Option Json
  | 0, _ => none
  | fuel + 1, id =>
      match store id with
      | none => none
      | some v =>
          match (v.get "inheritsFrom").bind Json.asStr with
          | some pid =>
              match loadMergedSpecFold store fuel pid with
              | some parent => some (merge_version_json parent v)
              | none => some v
          | none => some v

/-! ## Path normalization and de-duplication (`commands/profile.rs`) -/

/-- One pass of `s.replace("//", "/")` (leftmost, non-overlapping). -/
def replaceDoubleSlash : List Char → List Char
  | '/' :: '/' :: rest => '/' :: replaceDoubleSlash rest
  | c :: rest => c :: replaceDoubleSlash rest
  | [] => []

/-- Model of `s.contains("//")`. -/
def hasDoubleSlash : List Char → Bool
  | '/' :: '/' :: _ => true
  | _ :: rest => hasDoubleSlash rest
  | [] => false

/-- The `while s.contains("//")` loop; each pass strictly shrinks the
string, so `s.length` passes always reach the fixpoint. -/
def collapseLoop : Nat → List Char → List Char
  | 0, s => s
  | fuel + 1, s =>
      if hasDoubleSlash s then collapseLoop fuel (replaceDoubleSlash s) else s

/-- Transcription of `normalize_path_for_compare` from `commands/profile.rs`: trim,
backslashes to slashes, collapse doubled slashes, and lowercase only on
Windows (the `cfg!(target_os = "windows")` branch is the `windows`
parameter; ASCII lowercasing models `to_lowercase` on path text). -/
def normalize_path_for_compare (windows : Bool) (path : String) : String :=
  let s := trimChars path.data
  let s := s.map (fun c => if c == '\\' then '/' else c)
  let s := collapseLoop s.length s
  let s := if windows then s.map Char.toLower else s
  String.mk s

/-- The scan of `dedup_preserve_order`, carrying the `seen` set (a Rust
`HashSet<String>`, i.e. membership by string equality). -/
def dedupGo : List String → List String → List String
  | [], _ => []
  | x :: xs, seen =>
      if x ∈ seen then dedupGo xs seen else x :: dedupGo xs (x :: seen)

/-- Transcription of `dedup_preserve_order` from `commands/profile.rs`: keeps the first
occurrence of each *exact* string, in input order. -/
def dedup_preserve_order (items : List String) : List String :=
  dedupGo items []

/-- Transcription of `get_cp_sep` from `commands/profile.rs`. -/
def get_cp_sep (windows : Bool) : String :=
  if windows then ";" else ":"

/-- The module-path separator used by both module-path helpers. -/
def modSep (windows : Bool) : Char :=
  if windows then ';' else ':'

/-- The per-value normalization of `extract_module_path_libraries`:
split the module-path string, trim, drop empties, normalize each piece. -/
def modulePiecesNorm (windows : Bool) (v : String) : List String :=
  (((splitStr (modSep windows) v).map trimStr).filter (fun p => !p.isEmpty)).map
    (normalize_path_for_compare windows)

/-- Transcription of `extract_module_path_libraries` from `commands/profile.rs`: every
`-p`/`--module-path` flag contributes the normalized pieces of its
following value (the scan advances one token at a time). -/
def extract_module_path_libraries (windows : Bool) : List String → List String
  | [] => []
  | a :: rest =>
      (if a == "-p" || a == "--module-path" then
        match rest with
        | v :: _ => modulePiecesNorm windows v
        | [] => []
      else []) ++ extract_module_path_libraries windows rest

/-- Dedup of one module-path value: keep each original piece whose
normalized form is new (`seen` holds normalized keys). -/
def dedupByNorm (windows : Bool) : List String → List String → List String
  | [], _ => []
  | p :: ps, seen =>
      let n := normalize_path_for_compare windows p
      if n ∈ seen then dedupByNorm windows ps seen
      else p :: dedupByNorm windows ps (n :: seen)

/-- Transcription of `deduplicate_module_path_args` from `commands/profile.rs`: rebuilds a
`-p`/`--module-path` value with normalized-duplicate pieces removed; a
trailing flag with no value is pushed twice, exactly as the code does. -/
def deduplicate_module_path_args (windows : Bool) : List String → List String
  | [] => []
  | a :: rest =>
      if a == "-p" || a == "--module-path" then
        match rest with
        | v :: rest2 =>
            let pieces :=
              ((splitStr (modSep windows) v).map trimStr).filter
                (fun p => !p.isEmpty)
            a :: joinSep (String.mk [modSep windows]) (dedupByNorm windows pieces []) ::
              deduplicate_module_path_args windows rest2
        | [] => a :: a :: deduplicate_module_path_args windows []
      else a :: deduplicate_module_path_args windows rest

/-- Transcription of `filter_classpath_conflicts` from `commands/profile.rs`: with a
nonempty module set, drop classpath entries whose normalized form is
already on the module path. -/
def filter_classpath_conflicts (windows : Bool) (cpString : String)
    (moduleLibs : List String) (cpSep : Char) : String :=
  if moduleLibs.isEmpty then cpString
  else
    joinSep (String.mk [cpSep])
      ((splitStr cpSep cpString).filter
        (fun entry => !(moduleLibs.contains (normalize_path_for_compare windows entry))))

/-! ## Integrity verifier (`utils/hash.rs`)

The SHA-1/SHA-512 compressors live in external crates; they enter the
model as an abstract digest function `List Nat → List Nat` (bytes to
digest bytes).  A file is `none` when `File::open` fails (missing or
unreadable) and otherwise the list of chunks the 8192-byte read loop
yields; the incremental hasher state is the bytes fed so far. -/

/-- One lowercase hex digit (`{:x}` formatting of a nibble). -/
def hexDigit (n : Nat) : Char :=
  if n < 10 then Char.ofNat ('0'.toNat + n) else Char.ofNat ('a'.toNat + (n - 10))

/-- Model of the Rust lower-hex formatting of a digest: every digest
byte as two lowercase hex digits. -/
def toHexLower (bytes : List Nat) : String :=
  String.mk (bytes.foldr (fun b acc => hexDigit (b / 16 % 16) :: hexDigit (b % 16) :: acc) [])

/-- The read loop of the verifiers: feed every chunk to the hasher in
order (the hasher state is the concatenation of the fed bytes). -/
def feedChunks (chunks : List (List Nat)) : List Nat :=
  chunks.foldl (fun acc c => acc ++ c) []

/-- Transcription of `verify_sha1` from `utils/hash.rs`: `Err` when the file cannot be
opened, else `Ok` of `hash.eq_ignore_ascii_case(expected)` where `hash`
is the lowercase hex digest of the streamed contents. -/
def verify_sha1 (sha1 : List Nat → List Nat) (file : Option (List (List Nat)))
    (expected : String) : Except String Bool :=
  match file with
  | none => .error "io"
  | some chunks => .ok (eqIgnoreAsciiCase (toHexLower (sha1 (feedChunks chunks))) expected)

/-- Transcription of `verify_sha512` from `utils/hash.rs` (same shape, SHA-512 digest). -/
def verify_sha512 (sha512 : List Nat → List Nat) (file : Option (List (List Nat)))
    (expected : String) : Except String Bool :=
  match file with
  | none => .error "io"
  | some chunks => .ok (eqIgnoreAsciiCase (toHexLower (sha512 (feedChunks chunks))) expected)

/-! ## Download manager (`utils/download.rs`)

Network and filesystem effects are oracles: `PreCheck` is what the
existing-destination checks would observe, and `AttemptOutcome` is what
attempt `n` of the transfer and its post-download verification would
return.  The model returns the result, the list of back-off sleeps (ms)
performed, and the number of `download_with_stream` transfers. -/

/-- Model of `DownloadError` from `utils/download.rs`. -/
inductive DownloadError where
  | http : String → DownloadError
  | io : String → DownloadError
  | hashMismatch : (expected : String) → (actual : String) → DownloadError
  | retryExhausted : (attempts : Nat) → (message : String) → DownloadError

/-- The `thiserror` display strings of `DownloadError`. -/
def DownloadError.toMessage : DownloadError → String
  | .http m => "HTTP error: " ++ m
  | .io m => "IO error: " ++ m
  | .hashMismatch e a => "Hash mismatch: expected " ++ e ++ ", got " ++ a
  | .retryExhausted n m => "Download failed after " ++ toString n ++ " attempts: " ++ m

/-- Model of `DownloadTask` from `utils/download.rs`. -/
structure DownloadTask where
  url : String
  path : String
  size : Option Nat
  sha1 : Option String
  sha512 : Option String

/-- What the pre-download destination checks observe: whether the file
exists, and the outcomes of `verify_sha1`, `verify_sha512` and
`metadata().len()` on it (`.error` is an I/O error propagated by `?`). -/
structure PreCheck where
  destExists : Bool
  sha1Verify : Except String Bool
  sha512Verify : Except String Bool
  metadataLen : Except String Nat

/-- What attempt `n` observes: the `download_with_stream` result and, on
success, the verification calls on the freshly written file. -/
structure AttemptOutcome where
  stream : Except DownloadError Unit
  sha1Verify : Except String Bool
  sha1Computed : Except String String
  sha512Verify : Except String Bool

/-- Constant of `DownloadManager::new`, which always sets `max_retries: 3`. -/
def managerMaxRetries : Nat := 3

/-- The post-download verification block: `ok none` means fully verified
(`return Ok(())`), `ok (some e)` means a recorded mismatch followed by
`continue`, `.error` is an I/O error propagated immediately by `?`. -/
def verifyAfterDownload (task : DownloadTask) (o : AttemptOutcome) :
    Except DownloadError (Option DownloadError) :=
  match task.sha1 with
  | some expected =>
      match o.sha1Verify with
      | .error m => .error (.io m)
      | .ok false =>
          match o.sha1Computed with
          | .error m => .error (.io m)
          | .ok actual => .ok (some (.hashMismatch expected actual))
      | .ok true =>
          match task.sha512 with
          | some e512 =>
              match o.sha512Verify with
              | .error m => .error (.io m)
              | .ok false => .ok (some (.hashMismatch e512 "verification failed"))
              | .ok true => .ok none
          | none => .ok none
  | none =>
      match task.sha512 with
      | some e512 =>
          match o.sha512Verify with
          | .error m => .error (.io m)
          | .ok false => .ok (some (.hashMismatch e512 "verification failed"))
          | .ok true => .ok none
      | none => .ok none

/-- The `for attempt in 1..=max_retries` loop of `download_file`.  On a
transfer error the manager sleeps `500 * attempt` ms when more attempts
remain; a digest mismatch records the error and retries *without*
sleeping.  Returns (result, sleeps, transfers). -/
def attemptLoop (task : DownloadTask) (oc : Nat → AttemptOutcome)
    (maxRetries : Nat) :
    List Nat → Option DownloadError →
    Except DownloadError Unit × List Nat × Nat
  | [], lastError =>
      (.error (.retryExhausted maxRetries ((lastError.map DownloadError.toMessage).getD "")),
       [], 0)
  | attempt :: rest, _lastError =>
      match (oc attempt).stream with
      | .error e =>
          let r := attemptLoop task oc maxRetries rest (some e)
          (r.1, (if attempt < maxRetries then [500 * attempt] else []) ++ r.2.1, r.2.2 + 1)
      | .ok _ =>
          match verifyAfterDownload task (oc attempt) with
          | .error e => (.error e, [], 1)
          | .ok none => (.ok (), [], 1)
          | .ok (some me) =>
              let r := attemptLoop task oc maxRetries rest (some me)
              (r.1, r.2.1, r.2.2 + 1)

/-- Transcription of `DownloadManager::download_file` from `utils/download.rs`: the
existing-destination short-circuit followed by the retry loop. -/
def download_file (task : DownloadTask) (pre : PreCheck)
    (oc : Nat → AttemptOutcome) :
    Except DownloadError Unit × List Nat × Nat :=
  let runLoop :=
    attemptLoop task oc managerMaxRetries
      (List.range' 1 managerMaxRetries) none
  if pre.destExists then
    match task.sha1 with
    | some _ =>
        match pre.sha1Verify with
        | .error m => (.error (.io m), [], 0)
        | .ok true => (.ok (), [], 0)
        | .ok false => runLoop
    | none =>
        match task.sha512 with
        | some _ =>
            match pre.sha512Verify with
            | .error m => (.error (.io m), [], 0)
            | .ok true => (.ok (), [], 0)
            | .ok false => runLoop
        | none =>
            match task.size with
            | some n =>
                match pre.metadataLen with
                | .error m => (.error (.io m), [], 0)
                | .ok len => if len == n then (.ok (), [], 0) else runLoop
            | none => runLoop
  else runLoop

/-- Transcription of `DownloadManager::download_many`: one `download_file` per task;
`join_all` yields the results in input order (its documented semantics),
so the batch is an order-preserving map over the tasks. -/
def download_many (pre : DownloadTask → PreCheck)
    (oc : DownloadTask → Nat → AttemptOutcome) (tasks : List DownloadTask) :
    List (Except DownloadError Unit) :=
  tasks.map (fun t => (download_file t (pre t) (oc t)).1)

/-- Transcription of `DownloadManager::download_many_with_progress`: the progress callback
only observes completions; the returned vector is again the in-order
`join_all` of the per-task `download_file` results. -/
def download_many_with_progress (pre : DownloadTask → PreCheck)
    (oc : DownloadTask → Nat → AttemptOutcome) (tasks : List DownloadTask) :
    List (Except DownloadError Unit) :=
  tasks.map (fun t => (download_file t (pre t) (oc t)).1)

/-! ## Game-argument pruning and JVM-argument filtering
(`commands/profile.rs`) -/

/-- Model of the Rust test for an unresolved placeholder marker (contains a dollar sign directly followed by an opening brace) on the character list (the two-character pattern
written out). -/
def hasUnresolved (s : String) : Bool :=
  charsHaveSub ['$', '\x7b'] s.data

/-- The fixed set of value-taking flags of `filter_unresolved_game_args`. -/
def valueFlags : List String :=
  ["--width", "--height", "--clientId", "--xuid", "--versionType",
   "--quickPlayPath", "--quickPlaySingleplayer", "--quickPlayMultiplayer",
   "--quickPlayRealms"]

/-- Transcription of `filter_unresolved_game_args` from `commands/profile.rs`: a known
value-taking flag whose own text or following value still holds an
unresolved placeholder is dropped together with that value; any other
token still holding a placeholder is dropped alone. -/
def filter_unresolved_game_args : List String → List String
  | [] => []
  | [a] =>
      if valueFlags.contains a then
        if hasUnresolved a then [] else [a]
      else if hasUnresolved a then [] else [a]
  | a :: v :: rest =>
      if valueFlags.contains a then
        if hasUnresolved a || hasUnresolved v then
          filter_unresolved_game_args rest
        else if hasUnresolved a then filter_unresolved_game_args (v :: rest)
        else a :: filter_unresolved_game_args (v :: rest)
      else if hasUnresolved a then filter_unresolved_game_args (v :: rest)
      else a :: filter_unresolved_game_args (v :: rest)

/-- Model of `s.contains("${classpath}")`. -/
def hasClasspathPlaceholder (s : String) : Bool :=
  strContainsSub s "${classpath}"

/-- Transcription of `filter_jvm_args` from `commands/profile.rs`: drops every
`-cp`/`-classpath` token together with the following value token
(`skip_next`), and any token still holding `${classpath}`. -/
def filter_jvm_args : List String → List String
  | [] => []
  | a :: rest =>
      if a == "-cp" || a == "-classpath" then
        match rest with
        | _ :: rest2 => filter_jvm_args rest2
        | [] => []
      else if hasClasspathPlaceholder a then filter_jvm_args rest
      else a :: filter_jvm_args rest

/-! ## Launch assembly (`build_args_from_version_json`)

The I/O-derived inputs of `build_args_from_version_json` (the merged
substituted argument templates of the descriptor, the classpath list built
from the libraries, the natives directory, the identity tuple) are the
fields of `LaunchParams`; the function below transcribes the pure
assembly from the memory flag down to the game arguments. -/

structure LaunchParams where
  maxMemoryMb : Nat
  extraJvmArgs : List String
  /-- the substituted `arguments.jvm` template tokens -/
  jvmArgs : List String
  /-- the substituted `arguments.game` template tokens -/
  gameArgs : List String
  /-- raw classpath entries built from the libraries plus the client jar -/
  classpath : List String
  nativesDir : String
  mainClass : String
  username : String
  uuid : String
  accessToken : String
  userType : String
  versionId : String
  gameDir : String
  assetsDir : String
  assetIndexId : String

/-- The fixed fallback flag set pushed when no templated game arguments
exist. -/
def fallbackGameArgs (p : LaunchParams) : List String :=
  ["--username", p.username, "--version", p.versionId, "--gameDir", p.gameDir,
   "--assetsDir", p.assetsDir, "--assetIndex", p.assetIndexId, "--uuid", p.uuid,
   "--accessToken", p.accessToken, "--userType", p.userType]

/-- Everything `build_args_from_version_json` pushes before `-cp`:
memory flag, caller-supplied extra flags, the native-library-path flag
when not already templated, then the filtered and module-path-deduped
JVM template arguments. -/
def buildJvmLead (windows : Bool) (p : LaunchParams) : List String :=
  let jvmArgs := filter_jvm_args p.jvmArgs
  ("-Xmx" ++ toString p.maxMemoryMb ++ "M") :: p.extraJvmArgs ++
    (if jvmArgs.any (fun a => startsWithStr a "-Djava.library.path=") then []
     else ["-Djava.library.path=" ++ p.nativesDir]) ++
    deduplicate_module_path_args windows jvmArgs

/-- The game-argument tail: the fallback flag set when the template is
empty, else the pruned game arguments. -/
def buildGameTail (p : LaunchParams) : List String :=
  if p.gameArgs.isEmpty then fallbackGameArgs p
  else filter_unresolved_game_args p.gameArgs

/-- The classpath string pushed right after `-cp`: the (twice) deduped
classpath joined with the platform separator, minus entries already on
the module path. -/
def assembledCp (windows : Bool) (p : LaunchParams) : String :=
  let cpString :=
    joinSep (get_cp_sep windows)
      (dedup_preserve_order (dedup_preserve_order p.classpath))
  let moduleLibs :=
    dedup_preserve_order
      (extract_module_path_libraries windows (filter_jvm_args p.jvmArgs))
  filter_classpath_conflicts windows cpString moduleLibs (modSep windows)

/-- Transcription of `build_args_from_version_json` from `commands/profile.rs` (the pure
assembly; placeholder substitution has already produced `jvmArgs` and
`gameArgs`). -/
def build_args_from_version_json (windows : Bool) (p : LaunchParams) :
    List String :=
  buildJvmLead windows p ++ ["-cp", assembledCp windows p, p.mainClass] ++
    buildGameTail p

/-! ## Timestamp stripping (`strip_game_timestamp`) -/

/-- The timestamp-body character test: ASCII digit, colon, dot, dash or
space. -/
def allowedTsChar (c : Char) : Bool :=
  c.isDigit || c == ':' || c == '.' || c == '-' || c == ' '

/-- Split at the first `]`: `some (inner, rest)` when the list is
`inner ++ ']' :: rest` with `']' ∉ inner` (model of `trimmed.find(']')`). -/
def splitAtRB : List Char → Option (List Char × List Char)
  | [] => none
  | c :: cs =>
      if c == ']' then some ([], cs)
      else
        match splitAtRB cs with
        | some (inner, rest) => some (c :: inner, rest)
        | none => none

/-- Transcription of `strip_game_timestamp` from `commands/profile.rs` on character lists:
after trimming leading whitespace, a leading `[...]` group made of
digits/colons/dots/dashes/spaces with at least one colon is removed
together with the following whitespace; otherwise the line is returned
unchanged. -/
def stripChars (line : List Char) : List Char :=
  let trimmed := line.dropWhile Char.isWhitespace
  match trimmed with
  | '[' :: tl =>
      match splitAtRB tl with
      | some (inner, rest) =>
          if inner.all allowedTsChar && inner.any (fun c => c == ':') then
            rest.dropWhile Char.isWhitespace
          else line
      | none => line
  | _ => line

def strip_game_timestamp (line : String) : String :=
  String.mk (stripChars line.data)

/-- The condition under which `strip_game_timestamp` rewrites the line
(used to state the pass-through direction). -/
def hasLeadingTimestamp (line : List Char) : Bool :=
  match line.dropWhile Char.isWhitespace with
  | '[' :: tl =>
      match splitAtRB tl with
      | some (inner, _) => inner.all allowedTsChar && inner.any (fun c => c == ':')
      | none => false
  | _ => false

/-- Concrete three-deep inheritance chain `A → B → C` used for the
inheritance-depth analysis: only `C` declares a `mainClass`. -/
def c2jC : Json :=
  .obj [("id", .str "C"), ("mainClass", .str "root"), ("libraries", .arr [.str "lc"])]

def c2jB : Json :=
  .obj [("id", .str "B"), ("inheritsFrom", .str "C"), ("libraries", .arr [.str "lb"])]

def c2jA : Json :=
  .obj [("id", .str "A"), ("inheritsFrom", .str "B"), ("libraries", .arr [.str "la"])]

def c2store : String → Option Json := fun id =>
  if id = "A" then some c2jA
  else if id = "B" then some c2jB
  else if id = "C" then some c2jC
  else none

/-- Concrete depth-1 store (parent `P` with no `inheritsFrom`, child `K`). -/
def c2jP : Json :=
  .obj [("id", .str "P"), ("mainClass", .str "base"), ("libraries", .arr [.str "lp"])]

def c2jK : Json :=
  .obj [("id", .str "K"), ("inheritsFrom", .str "P"), ("libraries", .arr [.str "lk"])]

def c2wStore : String → Option Json := fun id =>
  if id = "K" then some c2jK else if id = "P" then some c2jP else none

/-! # Helper lemmas -/

theorem lookupField_setField (fs : List (String × Json)) (k : String) (v : Json)
    (k1 : String) :
    lookupField (setField fs k v) k1 = if k1 = k then some v else lookupField fs k1 := by
  induction fs with
  | nil =>
      by_cases h : k1 = k
      · subst h; simp [setField, lookupField]
      · have h2 : ¬ k = k1 := fun hh => h hh.symm
        simp [setField, lookupField, h, h2]
  | cons hd tl ih =>
      obtain ⟨k2, v2⟩ := hd
      by_cases h2 : k2 = k
      · subst h2
        simp only [setField, if_pos rfl, lookupField]
        by_cases h1 : k1 = k2
        · subst h1; simp
        · have h2b : ¬ k2 = k1 := fun hh => h1 hh.symm
          simp [h2b, h1]
      · simp only [setField, if_neg h2, lookupField]
        by_cases h1 : k2 = k1
        · have hk1 : ¬ k1 = k := fun hh => h2 (h1.trans hh)
          simp [h1, hk1]
        · simp [h1, ih]

theorem overlay_get (cfs : List (String × Json)) (g : List (String × Json))
    (K : String) (hK : K = "mainClass" ∨ K = "libraries" ∨ K = "arguments") :
    (cfs.foldl
        (fun (acc : Json) (kv : String × Json) =>
          if kv.1 = "libraries" ∨ kv.1 = "arguments" ∨ kv.1 = "mainClass" then acc
          else acc.set kv.1 kv.2)
        (.obj g)).get K = lookupField g K := by
  induction cfs generalizing g with
  | nil => simp [Json.get]
  | cons kv tl ih =>
      simp only [List.foldl_cons]
      by_cases hskip : kv.1 = "libraries" ∨ kv.1 = "arguments" ∨ kv.1 = "mainClass"
      · rw [if_pos hskip]
        exact ih g
      · rw [if_neg hskip]
        have hne : ¬ K = kv.1 := by
          rcases hK with h | h | h <;> subst h <;>
            exact fun h => hskip (by simp [← h])
        show ((tl.foldl _ (Json.obj (setField g kv.1 kv.2))).get K) = _
        rw [ih (setField g kv.1 kv.2), lookupField_setField, if_neg hne]

theorem dedupGo_sublist (l : List String) (seen : List String) :
    (dedupGo l seen).Sublist l := by
  induction l generalizing seen with
  | nil => simp [dedupGo]
  | cons x xs ih =>
      simp only [dedupGo]
      by_cases h : x ∈ seen
      · rw [if_pos h]
        exact (ih seen).cons x
      · rw [if_neg h]
        exact (ih (x :: seen)).cons₂ x

theorem dedupGo_mem (l : List String) (seen : List String) (a : String) :
    a ∈ dedupGo l seen ↔ a ∈ l ∧ a ∉ seen := by
  induction l generalizing seen with
  | nil => simp [dedupGo]
  | cons x xs ih =>
      simp only [dedupGo]
      by_cases h : x ∈ seen
      · rw [if_pos h, ih]
        constructor
        · rintro ⟨h1, h2⟩
          exact ⟨List.mem_cons_of_mem _ h1, h2⟩
        · rintro ⟨h1, h2⟩
          rcases List.mem_cons.mp h1 with rfl | h1
          · exact absurd h h2
          · exact ⟨h1, h2⟩
      · rw [if_neg h]
        constructor
        · intro hm
          rcases List.mem_cons.mp hm with rfl | hm
          · exact ⟨List.mem_cons_self _ _, h⟩
          · have := (ih (x :: seen)).mp hm
            exact ⟨List.mem_cons_of_mem _ this.1,
              fun hs => this.2 (List.mem_cons_of_mem _ hs)⟩
        · rintro ⟨h1, h2⟩
          rcases List.mem_cons.mp h1 with rfl | h1
          · exact List.mem_cons_self _ _
          · by_cases hax : a = x
            · exact hax ▸ List.mem_cons_self _ _
            · exact List.mem_cons_of_mem _
                ((ih (x :: seen)).mpr ⟨h1, by simp [hax, h2]⟩)

theorem dedupGo_nodup (l : List String) (seen : List String) :
    (dedupGo l seen).Nodup := by
  induction l generalizing seen with
  | nil => simp [dedupGo]
  | cons x xs ih =>
      simp only [dedupGo]
      by_cases h : x ∈ seen
      · rw [if_pos h]; exact ih seen
      · rw [if_neg h]
        refine List.nodup_cons.mpr ⟨fun hm => ?_, ih (x :: seen)⟩
        exact ((dedupGo_mem xs (x :: seen) x).mp hm).2 (List.mem_cons_self _ _)

theorem foldl_append_eq_join (l : List (List Nat)) (init : List Nat) :
    l.foldl (fun acc c => acc ++ c) init = init ++ l.flatten := by
  induction l generalizing init with
  | nil => simp
  | cons x xs ih => simp [ih, List.append_assoc]

theorem feedChunks_eq_join (chunks : List (List Nat)) :
    feedChunks chunks = chunks.flatten := by
  simp [feedChunks, foldl_append_eq_join]

theorem Json.get_obj (fs : List (String × Json)) (k : String) :
    (Json.obj fs).get k = lookupField fs k := rfl

theorem Json.set_obj (fs : List (String × Json)) (k : String) (v : Json) :
    (Json.obj fs).set k v = Json.obj (setField fs k v) := rfl

theorem Json.asObj_obj (fs : List (String × Json)) :
    (Json.obj fs).asObj = some fs := rfl

theorem rulesAllowGo_eq (cur : String) (rules : List Json) (acc : Bool) :
    rulesAllowGo cur rules acc =
      (!(rules.any fun r => ruleOsOk cur r && ruleAction r == "disallow") &&
        (acc || rules.any fun r => ruleOsOk cur r && ruleAction r == "allow")) := by
  induction rules generalizing acc with
  | nil => simp [rulesAllowGo]
  | cons r rest ih =>
      simp only [rulesAllowGo, List.any_cons]
      by_cases hos : ruleOsOk cur r = true
      · rw [if_pos hos]
        by_cases hd : ruleAction r = "disallow"
        · simp [hd, hos]
        · by_cases ha : ruleAction r = "allow"
          · rw [ha]
            simp only [ih true]
            have h1 : (ruleAction r == "disallow") = false := by
              simp [ha]
            simp [ha, hos, h1]
          · have h1 : (ruleAction r == "disallow") = false := by simp [hd]
            have h2 : (ruleAction r == "allow") = false := by simp [ha]
            have hm :
                (match ruleAction r with
                  | "disallow" => false
                  | "allow" => rulesAllowGo cur rest true
                  | _ => rulesAllowGo cur rest acc) = rulesAllowGo cur rest acc := by
              split
              · next heq => exact absurd heq hd
              · next heq => exact absurd heq ha
              · rfl
            rw [hm, ih acc, h1, h2]
            simp
      · rw [if_neg hos, ih acc]
        have hos2 : ruleOsOk cur r = false := by
          cases h : ruleOsOk cur r
          · rfl
          · exact absurd h hos
        simp [hos2]

theorem check_foldl_eq (cur : String) (rules : List MRule) (acc : Bool) :
    rules.foldl
        (fun allowed rule =>
          let m := match rule.os with
            | some os => matches_os cur os
            | none => true
          if m then rule.action == "allow" else allowed)
        acc =
      (match lastMatching cur rules with
       | some r => r.action == "allow"
       | none => acc) := by
  induction rules generalizing acc with
  | nil => simp [lastMatching]
  | cons r rest ih =>
      simp only [List.foldl_cons, lastMatching]
      rw [ih]
      cases hl : lastMatching cur rest with
      | some x => rfl
      | none =>
          simp only []
          by_cases hm : mruleMatches cur r = true
          · have : (match r.os with
                | some os => matches_os cur os
                | none => true) = true := hm
            simp [this, hm]
          · have hm2 : mruleMatches cur r = false := by
              cases h : mruleMatches cur r
              · rfl
              · exact absurd h hm
            have : (match r.os with
                | some os => matches_os cur os
                | none => true) = false := hm2
            simp [this, hm2]

/-- Claim C1, counterexample: in the `check_library_rules` of the installer a
rule list whose matching `disallow` is followed by a matching `allow`
evaluates to *allowed* — the last matching rule wins, so a matching
disallow does not make the result not-allowed. -/
theorem c1_counterexample :
    check_library_rules "linux"
      [⟨"disallow", some ⟨some "linux", none, none⟩⟩,
       ⟨"allow", some ⟨some "linux", none, none⟩⟩] = true := by
  rfl

/-- Claim C1, amended: the empty rule list is allowed under both
evaluators.  The launch-path `rules_allow` behaves as the claim states:
a non-empty list is allowed iff some `allow` rule matches the current OS
and no `disallow` rule does (a matching disallow wins regardless of
order).  The function `check_library_rules` of the installer, however, is decided by
the *last* matching rule: a non-empty list is allowed iff the last rule
matching the current OS has action `allow`. -/
theorem c1_rule_evaluation :
    (∀ cur, rules_allow cur [] = true ∧ check_library_rules cur [] = true)
    ∧ (∀ cur rules,
        rules_allow cur rules =
          (rules.isEmpty ||
            ((rules.any fun r => ruleOsOk cur r && ruleAction r == "allow") &&
              !(rules.any fun r => ruleOsOk cur r && ruleAction r == "disallow"))))
    ∧ (∀ cur rules,
        check_library_rules cur rules =
          (match lastMatching cur rules with
           | some r => r.action == "allow"
           | none => rules.isEmpty)) := by
  refine ⟨fun cur => ⟨rfl, rfl⟩, fun cur rules => ?_, fun cur rules => ?_⟩
  · rw [rules_allow, rulesAllowGo_eq]
    cases rules with
    | nil => rfl
    | cons r rest =>
        simp only [List.isEmpty_cons, Bool.or_false, Bool.false_or]
        rw [Bool.and_comm]
  · rw [check_library_rules, check_foldl_eq]
    cases rules with
    | nil => simp [lastMatching]
    | cons r rest =>
        simp only [List.isEmpty_cons, if_neg (by simp : ¬(false = true))]

/-- Claim C2, counterexample: on the three-deep chain `A → B → C` (only
`C` declares `mainClass = "root"`), `load_merged_version_json` differs
from the parent-then-child fold along the whole chain: the code merges
only one level, so the `mainClass` of the grandparent is lost (`none` instead
of `"root"`). -/
theorem c2_counterexample :
    load_merged_version_json c2store "A" ≠ loadMergedSpecFold c2store 3 "A"
    ∧ (load_merged_version_json c2store "A").bind
        (fun j => (j.get "mainClass").bind Json.asStr) = none
    ∧ (loadMergedSpecFold c2store 3 "A").bind
        (fun j => (j.get "mainClass").bind Json.asStr) = some "root" := by
  refine ⟨fun h => ?_, rfl, rfl⟩
  have h2 := congrArg
    (fun o : Option Json => o.bind (fun j => (j.get "mainClass").bind Json.asStr)) h
  exact absurd h2 (by decide)

/-- Claim C2, amended: `load_merged_version_json` resolves exactly one
level of `inheritsFrom` (the parent is loaded but its own parent is not),
so it agrees with the parent-then-child fold only on chains of depth at
most one; per merge step the merged `mainClass` is that of the child when the
child declares one, else that of the parent, and the merged library list
is the parent libraries followed by the child libraries. -/
theorem c2_inheritance_merge :
    (∀ store id v, store id = some v →
        (v.get "inheritsFrom").bind Json.asStr = none →
        load_merged_version_json store id = some v
        ∧ loadMergedSpecFold store 1 id = some v)
    ∧ (∀ store id v pid parent, store id = some v →
        (v.get "inheritsFrom").bind Json.asStr = some pid →
        store pid = some parent →
        (parent.get "inheritsFrom").bind Json.asStr = none →
        load_merged_version_json store id = some (merge_version_json parent v)
        ∧ loadMergedSpecFold store 2 id = some (merge_version_json parent v))
    ∧ (∀ p c : List (String × Json),
        (merge_version_json (.obj p) (.obj c)).get "mainClass" =
          (match lookupField c "mainClass" with
           | some mc => some mc
           | none => lookupField p "mainClass"))
    ∧ (∀ p c : List (String × Json),
        (merge_version_json (.obj p) (.obj c)).get "libraries" =
          some (.arr (optAsArrD (lookupField p "libraries") ++
            optAsArrD (lookupField c "libraries")))) := by
  refine ⟨fun store id v h1 h2 => ?_, fun store id v pid parent h1 h2 h3 h4 => ?_,
    fun p c => ?_, fun p c => ?_⟩
  · constructor
    · simp [load_merged_version_json, h1, h2]
    · simp [loadMergedSpecFold, h1, h2]
  · constructor
    · simp [load_merged_version_json, h1, h2, h3]
    · simp [loadMergedSpecFold, h1, h2, h3, h4]
  · cases hmc : lookupField c "mainClass" with
    | none =>
        simp only [merge_version_json, Json.get_obj, Json.set_obj, Json.asObj_obj, hmc]
        rw [overlay_get _ _ _ (Or.inl rfl)]
        rw [lookupField_setField, if_neg (by decide),
          lookupField_setField, if_neg (by decide)]
    | some mc =>
        simp only [merge_version_json, Json.get_obj, Json.set_obj, Json.asObj_obj, hmc]
        rw [overlay_get _ _ _ (Or.inl rfl)]
        rw [lookupField_setField, if_neg (by decide),
          lookupField_setField, if_neg (by decide),
          lookupField_setField, if_pos rfl]
  · cases hmc : lookupField c "mainClass" with
    | none =>
        simp only [merge_version_json, Json.get_obj, Json.set_obj, Json.asObj_obj, hmc]
        rw [overlay_get _ _ _ (Or.inr (Or.inl rfl))]
        rw [lookupField_setField, if_neg (by decide),
          lookupField_setField, if_pos rfl]
    | some mc =>
        simp only [merge_version_json, Json.get_obj, Json.set_obj, Json.asObj_obj, hmc]
        rw [overlay_get _ _ _ (Or.inr (Or.inl rfl))]
        rw [lookupField_setField, if_neg (by decide),
          lookupField_setField, if_pos rfl,
          lookupField_setField, if_neg (by decide)]

/-- Witness for `c2_inheritance_merge` on the concrete depth-1 store
`K → P`. -/
theorem c2_inheritance_merge_witness :
    load_merged_version_json c2wStore "K" = some (merge_version_json c2jP c2jK)
    ∧ loadMergedSpecFold c2wStore 2 "K" = some (merge_version_json c2jP c2jK) :=
  c2_inheritance_merge.2.1 c2wStore "K" c2jK "P" c2jP rfl rfl rfl rfl

/-- Claim C3, counterexample: classpath de-duplication
(`dedup_preserve_order`) compares raw strings and is independent of the
platform, so on the example of the spec the first two entries collapse but the
case-variant third always survives — two entries remain even on a
case-insensitive target, not one. -/
theorem c3_counterexample :
    dedup_preserve_order ["/a/b.jar", "/a/b.jar", "/A/B.JAR"] =
      ["/a/b.jar", "/A/B.JAR"]
    ∧ (dedup_preserve_order ["/a/b.jar", "/a/b.jar", "/A/B.JAR"]).length ≠ 1 := by
  exact ⟨rfl, by decide⟩

/-- Claim C3, amended: `dedup_preserve_order` keeps the first occurrence
of each *exact* string, in input order (its output is an order-preserving
duplicate-free sublist with the same members) and performs no slash or
case normalization on any target, so the example keeps two entries on
both case-sensitive and case-insensitive targets.  Normalized comparison
(`normalize_path_for_compare`: slashes and, on Windows, case) is applied
in module-path de-duplication instead, where case-variant duplicates do
collapse on Windows and survive elsewhere. -/
theorem c3_dedup_exact :
    (dedup_preserve_order ["/a/b.jar", "/a/b.jar", "/A/B.JAR"] =
      ["/a/b.jar", "/A/B.JAR"])
    ∧ (∀ l : List String,
        (dedup_preserve_order l).Sublist l
        ∧ (∀ x, x ∈ dedup_preserve_order l ↔ x ∈ l)
        ∧ (dedup_preserve_order l).Nodup)
    ∧ (deduplicate_module_path_args true ["-p", "C:\\X\\b.jar;c:/x/B.JAR"] =
        ["-p", "C:\\X\\b.jar"])
    ∧ (deduplicate_module_path_args false ["-p", "/a/b.jar:/A/B.JAR"] =
        ["-p", "/a/b.jar:/A/B.JAR"]) := by
  refine ⟨rfl, fun l => ⟨dedupGo_sublist l [], fun x => ?_, dedupGo_nodup l []⟩,
    by decide, by decide⟩
  rw [dedup_preserve_order, dedupGo_mem]
  simp

/-- Claim C4, counterexample: in the all-mismatch scenario the claim
asserts back-off sleeps of `attempt × 500 ms` between failed attempts
(`[500, 1000]`), but a digest-mismatch retry `continue`s without sleeping
— the sleep only sits on the transfer-error branch — so the performed
sleeps are `[]`. -/
theorem c4_counterexample :
    (download_file ⟨"u", "d", none, some "d1", none⟩
        ⟨false, .ok false, .ok false, .ok 0⟩
        (fun n => ⟨.ok (), .ok false, .ok ("bad" ++ toString n), .ok true⟩)).2.1 = []
    ∧ (download_file ⟨"u", "d", none, some "d1", none⟩
        ⟨false, .ok false, .ok false, .ok 0⟩
        (fun n => ⟨.ok (), .ok false, .ok ("bad" ++ toString n), .ok true⟩)).2.1 ≠
        [500, 1000] := by
  exact ⟨rfl, by decide⟩

/-- Claim C4, amended: `download_file` makes at most 3 attempts.  A task
whose first two attempts end in a digest mismatch and whose third attempt
downloads and verifies successfully returns `Ok`; a task whose three
attempts all end in a mismatch returns `RetryExhausted` with
`attempts = 3` carrying the message of the last error.  The linear back-off
sleep of `attempt × 500 ms` happens only after a failed *transfer*
(`download_with_stream` error) with attempts remaining; digest-mismatch
retries proceed without sleeping. -/
theorem c4_retry_behavior :
    (∀ task pre oc e a1 a2,
        pre.destExists = false → task.sha1 = some e → task.sha512 = none →
        (oc 1).stream = .ok () → (oc 1).sha1Verify = .ok false →
        (oc 1).sha1Computed = .ok a1 →
        (oc 2).stream = .ok () → (oc 2).sha1Verify = .ok false →
        (oc 2).sha1Computed = .ok a2 →
        (oc 3).stream = .ok () → (oc 3).sha1Verify = .ok true →
        download_file task pre oc = (.ok (), [], 3))
    ∧ (∀ task pre oc e a1 a2 a3,
        pre.destExists = false → task.sha1 = some e → task.sha512 = none →
        (oc 1).stream = .ok () → (oc 1).sha1Verify = .ok false →
        (oc 1).sha1Computed = .ok a1 →
        (oc 2).stream = .ok () → (oc 2).sha1Verify = .ok false →
        (oc 2).sha1Computed = .ok a2 →
        (oc 3).stream = .ok () → (oc 3).sha1Verify = .ok false →
        (oc 3).sha1Computed = .ok a3 →
        download_file task pre oc =
          (.error (.retryExhausted 3 ("Hash mismatch: expected " ++ e ++ ", got " ++ a3)),
           [], 3))
    ∧ (∀ task pre oc m1 m2 m3,
        pre.destExists = false →
        (oc 1).stream = .error (.http m1) →
        (oc 2).stream = .error (.http m2) →
        (oc 3).stream = .error (.http m3) →
        download_file task pre oc =
          (.error (.retryExhausted 3 ("HTTP error: " ++ m3)), [500, 1000], 3)) := by
  refine ⟨?_, ?_, ?_⟩
  · intro task pre oc e a1 a2 hp h1 h512 hs1 hv1 hc1 hs2 hv2 hc2 hs3 hv3
    simp [download_file, hp, managerMaxRetries, List.range',
      attemptLoop, verifyAfterDownload, h1, h512, hs1, hv1, hc1, hs2, hv2, hc2,
      hs3, hv3]
  · intro task pre oc e a1 a2 a3 hp h1 h512 hs1 hv1 hc1 hs2 hv2 hc2 hs3 hv3 hc3
    simp [download_file, hp, managerMaxRetries, List.range',
      attemptLoop, verifyAfterDownload, DownloadError.toMessage,
      h1, h512, hs1, hv1, hc1, hs2, hv2, hc2, hs3, hv3, hc3]
  · intro task pre oc m1 m2 m3 hp hs1 hs2 hs3
    simp [download_file, hp, managerMaxRetries, List.range',
      attemptLoop, DownloadError.toMessage, hs1, hs2, hs3]

/-- Witness for `c4_retry_behavior` at a concrete task and concrete
attempt outcomes. -/
theorem c4_retry_behavior_witness :
    download_file ⟨"u", "d", none, some "aa", none⟩
        ⟨false, .ok false, .ok false, .ok 0⟩
        (fun n => if n ≤ 2 then ⟨.ok (), .ok false, .ok "bb", .ok true⟩
                  else ⟨.ok (), .ok true, .ok "aa", .ok true⟩) = (.ok (), [], 3)
    ∧ download_file ⟨"u", "d", none, some "aa", none⟩
        ⟨false, .ok false, .ok false, .ok 0⟩
        (fun _ => ⟨.error (.http "boom"), .ok true, .ok "aa", .ok true⟩) =
        (.error (.retryExhausted 3 ("HTTP error: " ++ "boom")), [500, 1000], 3) :=
  ⟨c4_retry_behavior.1 _ _ _ "aa" "bb" "bb" rfl rfl rfl rfl rfl rfl rfl rfl rfl rfl rfl,
   c4_retry_behavior.2.2 _ _ _ "boom" "boom" "boom" rfl rfl rfl rfl⟩

theorem filter_unres_result (l : List String) :
    ∀ s ∈ filter_unresolved_game_args l, hasUnresolved s = false := by
  induction l using filter_unresolved_game_args.induct with
  | case1 =>
      intro s hs
      simp [filter_unresolved_game_args] at hs
  | case2 a hf ha =>
      intro s hs
      simp only [filter_unresolved_game_args, hf, ha, if_true] at hs
      simp at hs
  | case3 a hf ha =>
      intro s hs
      rw [Bool.not_eq_true] at ha
      simp only [filter_unresolved_game_args, hf, ha, if_true,
        Bool.false_eq_true, if_false] at hs
      have h := List.mem_singleton.mp hs
      subst h
      exact ha
  | case4 a hf ha =>
      intro s hs
      rw [Bool.not_eq_true] at hf
      simp only [filter_unresolved_game_args, hf, ha, if_true,
        Bool.false_eq_true, if_false] at hs
      simp at hs
  | case5 a hf ha =>
      intro s hs
      rw [Bool.not_eq_true] at hf ha
      simp only [filter_unresolved_game_args, hf, ha,
        Bool.false_eq_true, if_false] at hs
      have h := List.mem_singleton.mp hs
      subst h
      exact ha
  | case6 a v rest hf hcond ih =>
      intro s hs
      simp only [filter_unresolved_game_args, hf, hcond, if_true] at hs
      exact ih s hs
  | case7 a v rest hf hcond ha ih =>
      intro s hs
      rw [Bool.not_eq_true] at hcond
      rw [ha] at hcond
      simp at hcond
  | case8 a v rest hf hcond ha ih =>
      intro s hs
      rw [Bool.not_eq_true] at hcond
      obtain ⟨ha2, hv2⟩ := Bool.or_eq_false_iff.mp hcond
      simp only [filter_unresolved_game_args, hf, ha2, hv2, if_true,
        Bool.false_eq_true, if_false] at hs
      rcases List.mem_cons.mp hs with rfl | hs
      · exact ha2
      · exact ih s hs
  | case9 a v rest hf ha ih =>
      intro s hs
      rw [Bool.not_eq_true] at hf
      simp only [filter_unresolved_game_args, hf, ha, if_true,
        Bool.false_eq_true, if_false] at hs
      exact ih s hs
  | case10 a v rest hf ha ih =>
      intro s hs
      rw [Bool.not_eq_true] at hf ha
      simp only [filter_unresolved_game_args, hf, ha,
        Bool.false_eq_true, if_false] at hs
      rcases List.mem_cons.mp hs with rfl | hs
      · exact ha
      · exact ih s hs

/-- Claim C5: the spec template drops the `--width`/`${resolution_width}`
pair together and keeps `--demo`; no token of the pruned argument vector
still contains an unresolved `${` marker; and a known value-taking flag
whose own text or value still holds `${` is dropped together with its
value token. -/
theorem c5_unresolved_pruning :
    (filter_unresolved_game_args ["--width", "${resolution_width}", "--demo"] =
      ["--demo"])
    ∧ (∀ l s, s ∈ filter_unresolved_game_args l → hasUnresolved s = false)
    ∧ (∀ a v rest, valueFlags.contains a = true →
        (hasUnresolved a || hasUnresolved v) = true →
        filter_unresolved_game_args (a :: v :: rest) =
          filter_unresolved_game_args rest) := by
  refine ⟨rfl, fun l s hs => filter_unres_result l s hs, fun a v rest hflag hcond => ?_⟩
  simp only [filter_unresolved_game_args, hflag, hcond, if_true]

/-- Witness for `c5_unresolved_pruning` at the concrete template of the spec. -/
theorem c5_unresolved_pruning_witness :
    hasUnresolved "--demo" = false
    ∧ filter_unresolved_game_args
        ("--width" :: "${resolution_width}" :: ["--demo"]) =
        filter_unresolved_game_args ["--demo"] :=
  ⟨c5_unresolved_pruning.2.1 ["--width", "${resolution_width}", "--demo"] "--demo"
      (by decide),
   c5_unresolved_pruning.2.2 "--width" "${resolution_width}" ["--demo"]
      (by decide) (by decide)⟩

/-- Claim C6: when the destination file exists and validates against the
digest of the task (SHA-1, else SHA-512, else the expected byte size when no
digest is given), `download_file` returns `Ok` immediately with zero
transfers and zero sleeps, so re-running a batch over a fully-populated
store performs no network transfer. -/
theorem c6_idempotent_shortcircuit :
    (∀ task pre oc (d : String),
        pre.destExists = true → task.sha1 = some d →
        pre.sha1Verify = .ok true →
        download_file task pre oc = (.ok (), [], 0))
    ∧ (∀ task pre oc (d : String),
        pre.destExists = true → task.sha1 = none → task.sha512 = some d →
        pre.sha512Verify = .ok true →
        download_file task pre oc = (.ok (), [], 0))
    ∧ (∀ task pre oc (n : Nat),
        pre.destExists = true → task.sha1 = none → task.sha512 = none →
        task.size = some n → pre.metadataLen = .ok n →
        download_file task pre oc = (.ok (), [], 0)) := by
  refine ⟨fun task pre oc d hp h1 hv => ?_, fun task pre oc d hp h1 h2 hv => ?_,
    fun task pre oc n hp h1 h2 hsz hlen => ?_⟩
  · simp [download_file, hp, h1, hv]
  · simp [download_file, hp, h1, h2, hv]
  · simp [download_file, hp, h1, h2, hsz, hlen]

/-- Witness for `c6_idempotent_shortcircuit` at concrete tasks (one per
validation mode). -/
theorem c6_idempotent_shortcircuit_witness :
    download_file ⟨"u", "d", none, some "aa", none⟩
        ⟨true, .ok true, .ok false, .ok 0⟩ (fun _ => ⟨.ok (), .ok true, .ok "aa", .ok true⟩) =
      (.ok (), [], 0)
    ∧ download_file ⟨"u", "d", none, none, some "bb"⟩
        ⟨true, .ok false, .ok true, .ok 0⟩ (fun _ => ⟨.ok (), .ok true, .ok "aa", .ok true⟩) =
      (.ok (), [], 0)
    ∧ download_file ⟨"u", "d", some 7, none, none⟩
        ⟨true, .ok false, .ok false, .ok 7⟩ (fun _ => ⟨.ok (), .ok true, .ok "aa", .ok true⟩) =
      (.ok (), [], 0) :=
  ⟨c6_idempotent_shortcircuit.1 _ _ _ "aa" rfl rfl rfl,
   c6_idempotent_shortcircuit.2.1 _ _ _ "bb" rfl rfl rfl rfl,
   c6_idempotent_shortcircuit.2.2 _ _ _ 7 rfl rfl rfl rfl rfl⟩

theorem filter_jvm_args_no_cp (l : List String) :
    "-cp" ∉ filter_jvm_args l ∧ "-classpath" ∉ filter_jvm_args l := by
  induction l using filter_jvm_args.induct with
  | case1 => simp [filter_jvm_args]
  | case2 a hcp v tail ih =>
      simp only [filter_jvm_args, hcp, if_true]
      exact ih
  | case3 a hcp =>
      simp [filter_jvm_args, hcp]
  | case4 a rest hcp hph ih =>
      rw [Bool.not_eq_true] at hcp
      cases rest with
      | nil =>
          simp only [filter_jvm_args, hcp, hph, if_true, Bool.false_eq_true, if_false]
          exact ih
      | cons b bs =>
          simp only [filter_jvm_args, hcp, hph, if_true, Bool.false_eq_true, if_false]
          exact ih
  | case5 a rest hcp hph ih =>
      rw [Bool.not_eq_true] at hcp
      rw [Bool.not_eq_true] at hph
      obtain ⟨hacp, hacl⟩ := Bool.or_eq_false_iff.mp hcp
      have hstep : filter_jvm_args (a :: rest) = a :: filter_jvm_args rest := by
        cases rest with
        | nil => simp only [filter_jvm_args, hcp, hph, Bool.false_eq_true, if_false]
        | cons b bs => simp only [filter_jvm_args, hcp, hph, Bool.false_eq_true, if_false]
      rw [hstep]
      constructor
      · intro hm
        rcases List.mem_cons.mp hm with rfl | hm
        · simp at hacp
        · exact ih.1 hm
      · intro hm
        rcases List.mem_cons.mp hm with rfl | hm
        · simp at hacl
        · exact ih.2 hm

theorem xmx_ne_cp (m : Nat) : ("-Xmx" ++ toString m ++ "M") ≠ "-cp" := by
  intro h
  have hl := congrArg String.length h
  rw [String.length_append, String.length_append] at hl
  have h4 : ("-Xmx" : String).length = 4 := rfl
  have h1 : ("M" : String).length = 1 := rfl
  have h3 : ("-cp" : String).length = 3 := rfl
  rw [h4, h1, h3] at hl
  omega

theorem libpath_ne_cp (s : String) : ("-Djava.library.path=" ++ s) ≠ "-cp" := by
  intro h
  have hl := congrArg String.length h
  rw [String.length_append] at hl
  have h20 : ("-Djava.library.path=" : String).length = 20 := rfl
  have h3 : ("-cp" : String).length = 3 := rfl
  rw [h20, h3] at hl
  omega

/-- Claim C7: the assembled launch vector decomposes as the JVM lead,
then exactly one `-cp` immediately followed by the assembled classpath
string and the main class, then the game arguments (or the fixed fallback
flag set when no templated game arguments exist); and `filter_jvm_args`
removes every `-cp`/`-classpath` token of the JVM template of the descriptor
together with its following value token.  The count hypotheses say that
the caller-supplied extra flags, the surviving JVM template tokens, the
game tail, the main class and the classpath string do not themselves
spell `-cp`. -/
theorem c7_launch_vector (windows : Bool) (p : LaunchParams)
    (h1 : "-cp" ∉ p.extraJvmArgs)
    (h2 : "-cp" ∉ deduplicate_module_path_args windows (filter_jvm_args p.jvmArgs))
    (h3 : "-cp" ∉ buildGameTail p)
    (h4 : p.mainClass ≠ "-cp")
    (h5 : assembledCp windows p ≠ "-cp") :
    (build_args_from_version_json windows p =
      buildJvmLead windows p ++ ["-cp", assembledCp windows p, p.mainClass] ++
        buildGameTail p
     ∧ (build_args_from_version_json windows p).count "-cp" = 1)
    ∧ (∀ v rest, filter_jvm_args ("-cp" :: v :: rest) = filter_jvm_args rest
        ∧ filter_jvm_args ("-classpath" :: v :: rest) = filter_jvm_args rest)
    ∧ (∀ l, "-cp" ∉ filter_jvm_args l ∧ "-classpath" ∉ filter_jvm_args l) := by
  refine ⟨⟨rfl, ?_⟩, fun v rest => ⟨rfl, rfl⟩, filter_jvm_args_no_cp⟩
  have hlead : "-cp" ∉ buildJvmLead windows p := by
    intro hm
    rw [buildJvmLead] at hm
    rcases List.mem_cons.mp hm with heq | hm
    · exact xmx_ne_cp p.maxMemoryMb heq.symm
    · rcases List.mem_append.mp hm with hm | hm
      · rcases List.mem_append.mp hm with hm | hm
        · exact h1 hm
        · by_cases hc :
            (filter_jvm_args p.jvmArgs).any
              (fun a => startsWithStr a "-Djava.library.path=") = true
          · rw [if_pos hc] at hm
            simp at hm
          · rw [if_neg hc] at hm
            have := List.mem_singleton.mp hm
            exact libpath_ne_cp p.nativesDir this.symm
      · exact h2 hm
  rw [build_args_from_version_json, List.count_append, List.count_append]
  rw [List.count_eq_zero.mpr hlead, List.count_eq_zero.mpr h3]
  have hmid : (["-cp", assembledCp windows p, p.mainClass] : List String).count "-cp" = 1 := by
    simp [List.count_cons, h4, h5]
  rw [hmid]

/-- Witness for `c7_launch_vector` at a concrete platform and launch
context. -/
theorem c7_launch_vector_witness :
    build_args_from_version_json false
        ⟨1024, ["-Xss1M"], ["-Dkey=v"], ["--demo"], ["/l/a.jar", "/l/a.jar"],
         "/n", "Main", "u", "id", "tok", "msa", "1.21", "/g", "/a", "idx"⟩ =
      buildJvmLead false
          ⟨1024, ["-Xss1M"], ["-Dkey=v"], ["--demo"], ["/l/a.jar", "/l/a.jar"],
           "/n", "Main", "u", "id", "tok", "msa", "1.21", "/g", "/a", "idx"⟩ ++
        ["-cp",
         assembledCp false
           ⟨1024, ["-Xss1M"], ["-Dkey=v"], ["--demo"], ["/l/a.jar", "/l/a.jar"],
            "/n", "Main", "u", "id", "tok", "msa", "1.21", "/g", "/a", "idx"⟩,
         "Main"] ++
        buildGameTail
          ⟨1024, ["-Xss1M"], ["-Dkey=v"], ["--demo"], ["/l/a.jar", "/l/a.jar"],
           "/n", "Main", "u", "id", "tok", "msa", "1.21", "/g", "/a", "idx"⟩
    ∧ (build_args_from_version_json false
        ⟨1024, ["-Xss1M"], ["-Dkey=v"], ["--demo"], ["/l/a.jar", "/l/a.jar"],
         "/n", "Main", "u", "id", "tok", "msa", "1.21", "/g", "/a", "idx"⟩).count "-cp" = 1 :=
  (c7_launch_vector false
      ⟨1024, ["-Xss1M"], ["-Dkey=v"], ["--demo"], ["/l/a.jar", "/l/a.jar"],
       "/n", "Main", "u", "id", "tok", "msa", "1.21", "/g", "/a", "idx"⟩
      (by decide) (by decide) (by decide) (by decide) (by decide)).1

theorem hexDigit_lower (n : Nat) (h : n < 16) :
    ((hexDigit n).isDigit || ('a' ≤ hexDigit n && hexDigit n ≤ 'f')) = true := by
  interval_cases n <;> decide

theorem toHexLower_lowercase (bytes : List Nat) :
    (toHexLower bytes).data.all
      (fun c => c.isDigit || ('a' ≤ c && c ≤ 'f')) = true := by
  show (bytes.foldr
      (fun b acc => hexDigit (b / 16 % 16) :: hexDigit (b % 16) :: acc) []).all _ = true
  induction bytes with
  | nil => rfl
  | cons b bs ih =>
      simp only [List.foldr_cons, List.all_cons, Bool.and_eq_true]
      exact ⟨hexDigit_lower _ (Nat.mod_lt _ (by norm_num)),
        hexDigit_lower _ (Nat.mod_lt _ (by norm_num)), by simpa using ih⟩

/-- Claim C8: both verifiers return `Err` when the file cannot be opened
(missing/unreadable), and otherwise `Ok` of the ASCII-case-insensitive
comparison of the lowercase hex rendering of the computed digest against the
expected string — so a digest mismatch is `Ok false`, a distinct outcome
from an I/O error, and `Ok true` holds exactly when the lowercase hex
digest equals the expected string up to ASCII case.  Every character of
the rendered digest is a digit or a lowercase hex letter. -/
theorem c8_hash_verifiers :
    (∀ (h : List Nat → List Nat) (e : String),
        verify_sha1 h none e = .error "io" ∧ verify_sha512 h none e = .error "io")
    ∧ (∀ (h : List Nat → List Nat) (chunks : List (List Nat)) (e : String),
        verify_sha1 h (some chunks) e =
          .ok (eqIgnoreAsciiCase (toHexLower (h chunks.flatten)) e)
        ∧ verify_sha512 h (some chunks) e =
          .ok (eqIgnoreAsciiCase (toHexLower (h chunks.flatten)) e))
    ∧ (∀ (h : List Nat → List Nat) (chunks : List (List Nat)) (e : String),
        (verify_sha1 h (some chunks) e = .ok true ↔
          eqIgnoreAsciiCase (toHexLower (h chunks.flatten)) e = true))
    ∧ (∀ bytes : List Nat,
        (toHexLower bytes).data.all
          (fun c => c.isDigit || ('a' ≤ c && c ≤ 'f')) = true) := by
  refine ⟨fun h e => ⟨rfl, rfl⟩, fun h chunks e => ?_, fun h chunks e => ?_,
    toHexLower_lowercase⟩
  · rw [verify_sha1, verify_sha512, feedChunks_eq_join]
    exact ⟨rfl, rfl⟩
  · rw [verify_sha1, feedChunks_eq_join]
    simp

theorem dropWhile_ws_append (pre l : List Char)
    (h : pre.all Char.isWhitespace = true) :
    (pre ++ l).dropWhile Char.isWhitespace = l.dropWhile Char.isWhitespace := by
  induction pre with
  | nil => rfl
  | cons c cs ih =>
      rw [List.all_cons, Bool.and_eq_true] at h
      obtain ⟨hc, hcs⟩ := h
      simp [List.dropWhile_cons, hc, ih hcs]

theorem splitAtRB_append (inner rest : List Char)
    (h : inner.all allowedTsChar = true) :
    splitAtRB (inner ++ ']' :: rest) = some (inner, rest) := by
  induction inner with
  | nil => simp [splitAtRB]
  | cons c cs ih =>
      rw [List.all_cons, Bool.and_eq_true] at h
      obtain ⟨hc, hcs⟩ := h
      have hne : (c == ']') = false := by
        cases hq : c == ']'
        · rfl
        · rw [show c = ']' from eq_of_beq hq] at hc
          exact absurd hc (by decide)
      simp only [List.cons_append, splitAtRB, hne, Bool.false_eq_true, if_false,
        List.append_eq, ih hcs]

/-- Claim C9: the example line of the spec loses its timestamp bracket; in
general a line of the form whitespace, `[`, a body of digits, colons,
dots, dashes and spaces containing at least one colon, `]`, rest is
rewritten to the rest with its leading whitespace removed; and any line
not of that shape is returned unchanged. -/
theorem c9_timestamp_strip :
    (strip_game_timestamp "[14:03:04.930] [Render thread/INFO]: Hello" =
      "[Render thread/INFO]: Hello")
    ∧ (∀ pre inner rest : List Char,
        pre.all Char.isWhitespace = true →
        inner.all allowedTsChar = true →
        inner.any (fun c => c == ':') = true →
        stripChars (pre ++ '[' :: (inner ++ ']' :: rest)) =
          rest.dropWhile Char.isWhitespace)
    ∧ (∀ line : List Char,
        hasLeadingTimestamp line = false → stripChars line = line) := by
  refine ⟨rfl, fun pre inner rest hpre hinner hcolon => ?_, fun line h => ?_⟩
  · have h0 : (pre ++ '[' :: (inner ++ ']' :: rest)).dropWhile Char.isWhitespace =
        '[' :: (inner ++ ']' :: rest) := by
      rw [dropWhile_ws_append _ _ hpre]
      simp only [List.dropWhile_cons]
      rw [if_neg (by decide)]
    unfold stripChars
    rw [h0]
    simp only [splitAtRB_append _ _ hinner, hinner, hcolon, Bool.and_self, if_true]
  · unfold hasLeadingTimestamp at h
    unfold stripChars
    dsimp only
    split
    next tl heq =>
      simp only [heq] at h
      split
      next inner rest2 hs =>
        simp only [hs] at h
        simp only [h, Bool.false_eq_true, if_false]
      next hs => rfl
    next hne => rfl

/-- Witness for `c9_timestamp_strip` at a concrete timestamped line and a
concrete line with no leading timestamp bracket. -/
theorem c9_timestamp_strip_witness :
    stripChars
        (" ".data ++ '[' :: ("14:03".data ++ ']' :: " Hi".data)) =
      " Hi".data.dropWhile Char.isWhitespace
    ∧ stripChars "plain line".data = "plain line".data :=
  ⟨c9_timestamp_strip.2.1 " ".data "14:03".data " Hi".data
      (by decide) (by decide) (by decide),
   c9_timestamp_strip.2.2 "plain line".data (by decide)⟩

/-- Claim C10: both batch operations return one result per input task, in
input order: the result vector has the length of the task list and its `i`-th entry
is the `download_file` outcome of the `i`-th task (`join_all` resolves in
input order, so no failing task removes or reorders the result of another
result). -/
theorem c10_batch_order :
    ∀ pre oc (tasks : List DownloadTask),
      ((download_many pre oc tasks).length = tasks.length
        ∧ (download_many_with_progress pre oc tasks).length = tasks.length)
      ∧ (∀ i : Nat,
          (download_many pre oc tasks)[i]? =
            (tasks[i]?).map (fun t => (download_file t (pre t) (oc t)).1)
          ∧ (download_many_with_progress pre oc tasks)[i]? =
            (tasks[i]?).map (fun t => (download_file t (pre t) (oc t)).1)) := by
  intro pre oc tasks
  refine ⟨⟨List.length_map _ _, List.length_map _ _⟩, fun i => ⟨?_, ?_⟩⟩
  · rw [download_many, List.getElem?_map]
  · rw [download_many_with_progress, List.getElem?_map]

end SLL
